import Mathlib

/-!
Verification development for the EmailBot2 opportunity-resolution engine
(src/EmailBot2.py).  The Python source is shallowly embedded: pure string
manipulation is re-implemented over `List Char` with structural recursion,
external effects (the Gemini oracle, the Graph API, uuid generation) are
modelled as explicit inputs, and floats (oracle confidences) are modelled
as natural numbers scaled by 100 (so the 0.4 threshold becomes 40).
Timestamps (ISO-8601 strings in the source, compared and sorted
lexicographically, which on that format agrees with chronological order)
are modelled as naturals.
-/

namespace EmailBot2

/-! ## Python string primitives (structural re-implementations)

These mirror the Python `str` operations used by the source: `.lower()`,
`.strip()`, `in` (substring test), `.split()`, `.split('@')`, slicing
`[:n]`, and `len`.  They are defined over `String.data` so that the kernel
can evaluate them (the standard library versions use well-founded
recursion over byte positions, which `decide` cannot reduce). -/

def lowerStr (s : String) : String := String.mk (s.data.map Char.toLower)

def trimL (l : List Char) : List Char :=
  ((l.dropWhile Char.isWhitespace).reverse.dropWhile Char.isWhitespace).reverse

def trimStr (s : String) : String := String.mk (trimL s.data)

/-- Python `.strip().lower()` as applied to company names in the source. -/
def normStr (s : String) : String := lowerStr (trimStr s)

/-- Contiguous-subsequence test on lists; `containsSeq n h` is Python `n in h`
for the corresponding strings (empty needle matches everything). -/
def containsSeq : List Char → List Char → Bool
  | n, [] => n.isEmpty
  | n, c :: cs => n.isPrefixOf (c :: cs) || containsSeq n cs

/-- Python `needle in hay` on strings. -/
def substrB (needle hay : String) : Bool := containsSeq needle.data hay.data

/-- Python `len` on strings (number of characters). -/
def strLen (s : String) : Nat := s.data.length

/-- Python slicing `s[:n]` (by characters). -/
def strTake (s : String) (n : Nat) : String := String.mk (s.data.take n)

/-- Split a character list at every character satisfying `p`, keeping empty
pieces (like Python `str.split(sep)`; for whitespace splitting the empty
pieces are later discarded by the length > 2 filter, matching Python's
separator-free `str.split()` on the tokens that survive). -/
def splitChar (p : Char → Bool) : List Char → List Char → List (List Char)
  | [], acc => [acc.reverse]
  | c :: cs, acc => if p c then acc.reverse :: splitChar p cs [] else splitChar p cs (c :: acc)

def splitStr (p : Char → Bool) (s : String) : List String :=
  (splitChar p s.data []).map String.mk

/-- Python truthiness of an optional string (`None` and `""` are falsy). -/
def pyTruthy : Option String → Bool
  | none => false
  | some s => s ≠ ""

/-- Python `set.add` on the processed-email set, modelled over a list. -/
def pySetAdd (s : List String) (x : String) : List String :=
  if x ∈ s then s else s ++ [x]

/-- Python list indexing `l[i]` including negative indices; `none` models an
`IndexError`. -/
def pyIndex {α : Type} (l : List α) (i : Int) : Option α :=
  if 0 ≤ i then l.get? i.toNat
  else if 0 ≤ i + l.length then l.get? (i + l.length).toNat else none

/-! ## Stable insertion sort

Python's `list.sort`/`sorted` are stable ascending sorts by a key; `le`
below is the key comparison ("key of `x` ≤ key of `y`"). -/

def insSorted {α : Type} (le : α → α → Bool) (x : α) : List α → List α
  | [] => [x]
  | y :: ys => if le x y then x :: y :: ys else y :: insSorted le x ys

def isortBy {α : Type} (le : α → α → Bool) : List α → List α
  | [] => []
  | x :: xs => insSorted le x (isortBy le xs)

/-! ## Data model -/

/-- A registry entry as consumed by the matching code: the projection of an
OpportunityRecord built by `get_existing_opportunities_for_ai` (columns
id/company/title/summary) or appended in-run after a create. -/
structure Opp where
  id : String
  summary : String
  title : String
  company : String
deriving DecidableEq, Repr

/-- A raw opportunity candidate as parsed from an email by
`parse_email_for_opportunities`; `none` models a missing JSON key
(`dict.get` then supplies the call-site default). -/
structure Cand where
  title : Option String
  summary : Option String
  action_item : Option String
  contact_name : Option String
  contact_company : Option String
  contact_email : Option String
deriving DecidableEq, Repr

/-- The enhanced candidate dict built in `main` (`enhanced_opp` / `temp_opp`):
the raw fields plus a always-present contact email and the sender name. -/
structure Enh where
  title : Option String
  summary : Option String
  action_item : Option String
  contact_name : Option String
  contact_company : Option String
  contact_email : String
  sender_name : String
deriving DecidableEq, Repr

/-- The dict spread `enhanced_opp = {**opp, ...}` of lines 764-769:
Python `or` replaces both a missing key and an empty string. -/
def mkEnh (c : Cand) (senderEmail senderName : String) : Enh :=
  { title := c.title, summary := c.summary, action_item := c.action_item,
    contact_name := c.contact_name, contact_company := c.contact_company,
    contact_email := match c.contact_email with
      | none => senderEmail
      | some s => if s = "" then senderEmail else s,
    sender_name := senderName }

/-- A historical email as collected by `get_all_historical_emails`. -/
structure Hist where
  id : String
  subject : String
  body : String
  sender_email : String
  sender_name : String
  received_date : Nat
  conversation_id : String
deriving DecidableEq, Repr

/-- The structured verdict parsed from the semantic oracle's JSON response
(`{"match": ..., "opportunity_id": ..., "confidence": ...}`); a missing
`confidence` key is pre-resolved to 0 and a missing `match` key to `false`
by whoever constructs this value, mirroring `result.get(..., default)`.
Confidence is scaled by 100. -/
structure OracleResp where
  isMatch : Bool
  opportunity_id : Option String
  confidence : Nat
deriving DecidableEq, Repr

/-- Outcome of one call to the match oracle: either a transport error /
unparseable (non-JSON) response, or a parsed verdict. -/
inductive OracleOut where
  | failed (transport : Bool)
  | verdict (r : OracleResp)
deriving DecidableEq, Repr

/-- Parsed response of the earliest-mention oracle
(`{"first_mention_email_number": ..., "confidence": ...}`). -/
structure EMResp where
  first_mention_email_number : Option Int
  confidence : Nat
deriving DecidableEq, Repr

/-- Outcome of one call to the earliest-mention oracle. -/
inductive EMOut where
  | failed
  | verdict (r : EMResp)
deriving DecidableEq, Repr

/-! ## Text normalizer (keyword extraction in `find_related_opportunity_with_ai`,
lines 253-268) -/

def commonWords : List String :=
  ["the", "and", "for", "with", "from", "this", "that", "are", "was", "will",
   "have", "has", "can", "but", "not", "you", "all", "our", "your"]

/-- Python `[word.strip() for word in text.split() if len(word.strip()) > 2]`. -/
def pyWords (t : String) : List String :=
  ((splitStr Char.isWhitespace t).filter (fun w => 2 < strLen (trimStr w))).map trimStr

/-- The keyword extraction loop over `[new_title, new_summary, new_company]`
followed by the stop-word filter. -/
def extractKeywords (texts : List String) : List String :=
  (texts.foldl (fun acc t => if t ≠ "" ∧ t ≠ "na" then acc ++ pyWords t else acc) []).filter
    (fun k => ¬ lowerStr k ∈ commonWords)

/-! ## Deterministic company matcher (`simple_company_match`, lines 473-497) -/

/-- The per-entry predicate of `simple_company_match`: exact normalized
equality, or mutual containment with both sides of length ≥ 4. -/
def scmPred (nc : String) (opp : Opp) : Bool :=
  let ec := normStr opp.company
  ec == nc || (4 ≤ strLen nc && 4 ≤ strLen ec && (substrB nc ec || substrB ec nc))

def simpleCompanyMatch (e : Enh) (existing : List Opp) : Option String :=
  let nc := normStr (e.contact_company.getD "")
  if nc = "" ∨ nc = "na" then none
  else (existing.find? (scmPred nc)).map (·.id)

/-! ## `find_related_opportunity_with_ai` (lines 189-470) -/

/-- Email-domain extraction (lines 208-210): the piece after the first `@`,
lower-cased; empty when there is no `@`. -/
def emailDomain (email : String) : String :=
  if email ≠ "" ∧ substrB "@" email then
    lowerStr ((splitStr (· == '@') email).getD 1 "")
  else ""

/-- PRIORITY 1 (lines 212-231): first registry entry whose company exactly
equals, or one-sidedly contains/is contained in (length > 3 on the
containing side's needle), the candidate company. -/
def companyPriorityMatch (nc : String) (existing : List Opp) : Option String :=
  if nc ≠ "" ∧ nc ≠ "na" then
    (existing.find? (fun opp =>
      let ec := normStr opp.company
      ec == nc || (3 < strLen nc && substrB nc ec) || (3 < strLen ec && substrB ec nc))).map (·.id)
  else none

/-- Registry-entry text used by the PRIORITY 2 domain check (title+summary,
lines 238-240). -/
def titleSummaryText (o : Opp) : String := lowerStr (o.title ++ " " ++ o.summary)

/-- PRIORITY 2 (lines 234-243): first registry entry whose title+summary text
contains the candidate's email domain. -/
def domainPriorityMatch (dom : String) (existing : List Opp) : Option String :=
  if dom ≠ "" then
    (existing.find? (fun opp => substrB dom (titleSummaryText opp))).map (·.id)
  else none

/-! ### Relevance scorer (lines 273-311) -/

def projectTerms : List String :=
  ["mobile app", "website", "cloud", "training", "development", "redesign", "upgrade"]

/-- The text `f"{title} {summary} {company}".lower()` of a registry entry. -/
def oppText (o : Opp) : String := lowerStr (o.title ++ " " ++ o.summary ++ " " ++ o.company)

/-- The per-entry relevance score.  The three company signals form an
`if/elif/elif` chain in the source (mutually exclusive; the +200 branch is
reachable only when the company has length ≤ 3), while the domain, keyword
and project-term signals accumulate on top. -/
def scoreOpp (nc ntitle nsum ndom : String) (kws : List String) (o : Opp) : Nat :=
  let t := oppText o
  let oc := normStr o.company
  let s1 : Nat :=
    if nc ≠ "" ∧ nc ≠ "na" ∧ oc = nc then 1000
    else if nc ≠ "" ∧ nc ≠ "na" ∧ 3 < strLen nc then
      (if substrB nc oc ∨ substrB oc nc then 500 else 0)
    else if nc ≠ "" ∧ nc ≠ "na" ∧ substrB nc t then 200
    else 0
  let s2 := if ndom ≠ "" ∧ substrB ndom t then s1 + 100 else s1
  let s3 := kws.foldl (fun a k => if substrB (lowerStr k) t then a + 10 else a) s2
  projectTerms.foldl
    (fun a term => if (substrB term ntitle || substrB term nsum) && substrB term t then a + 30 else a) s3

/-- Sort key comparison for `scored_opportunities.sort(key=lambda x: (-x[0],
-existing_opportunities.index(x[1])))`: higher score first, among equal
scores the later (more recently appended) entry first.  Elements are
(score, original index, entry). -/
def scoredLe (a b : Nat × Nat × Opp) : Bool :=
  b.1 < a.1 || (a.1 == b.1 && b.2.1 ≤ a.2.1)

/-! ### Historical-email relevance filter (lines 343-374) -/

def histContent (h : Hist) : String := lowerStr (h.subject ++ " " ++ h.body)

/-- Relevance of one historical email to the candidate (lines 353-367):
+50 sender equality, +30 company mention, +5 per keyword occurrence. -/
def relevanceScore (senderEmail nc : String) (kws : List String) (h : Hist) : Nat :=
  let content := histContent h
  let s1 : Nat := if senderEmail ≠ "" ∧ senderEmail = lowerStr h.sender_email then 50 else 0
  let s2 := if nc ≠ "" ∧ nc ≠ "na" ∧ substrB nc content then s1 + 30 else s1
  kws.foldl (fun a k => if substrB (lowerStr k) content then a + 5 else a) s2

/-- Filter the first 50 historical emails by relevance ≥ 10, sort by
descending relevance (stable) and keep the top 10 (lines 344-374). -/
def relevantHistorical (senderEmail nc : String) (kws : List String) (hist : List Hist) : List Hist :=
  ((isortBy (fun a b => Nat.ble b.1 a.1)
      ((hist.take 50).foldl (fun acc h =>
        let rs := relevanceScore senderEmail nc kws h
        if 10 ≤ rs then acc ++ [(rs, h)] else acc) [])).take 10).map (·.2)

/-- The result of `find_related_opportunity_with_ai`: the returned pair,
plus two observables: whether control reached the `generate_content` call
(the semantic oracle was consulted) and whether a low-confidence rejection
was logged.  The source returns `None, None` at the both-empty early exit;
that value is only ever truthiness-tested downstream, so it is modelled as
the empty list. -/
structure FRResult where
  matchId : Option String
  relevant : List Hist
  oracleCalled : Bool
  lowConfLogged : Bool
deriving DecidableEq, Repr

/-- The adapter threshold `confidence_threshold = 0.4` (line 444), scaled by 100. -/
def confidenceThreshold : Nat := 40

/-- The oracle call and confidence gate (lines 428-470): a transport error or
unparseable response yields no-match with the empty historical list; an
accepted verdict (match and confidence ≥ threshold) returns the response's
opportunity id (which may be absent); a match below threshold is logged as
a low-confidence rejection. -/
def oracleStage (rel : List Hist) (out : OracleOut) : FRResult :=
  match out with
  | .failed _ => ⟨none, [], true, false⟩
  | .verdict r =>
    if r.isMatch ∧ confidenceThreshold ≤ r.confidence then ⟨r.opportunity_id, rel, true, false⟩
    else if r.isMatch then ⟨none, rel, true, true⟩
    else ⟨none, rel, true, false⟩

/-- The keyword list extracted from the candidate (lines 253-268): the
lower-cased title and summary and the normalized company. -/
def candKeywords (e : Enh) : List String :=
  extractKeywords [lowerStr (e.title.getD ""), lowerStr (e.summary.getD ""),
    normStr (e.contact_company.getD "")]

/-- Scoring of every registry entry followed by the sort (lines 272-314):
elements are (score, original index, entry). -/
def scoredSorted (e : Enh) (existing : List Opp) : List (Nat × Nat × Opp) :=
  isortBy scoredLe
    (existing.enum.map (fun p => (scoreOpp (normStr (e.contact_company.getD ""))
      (lowerStr (e.title.getD "")) (lowerStr (e.summary.getD ""))
      (emailDomain e.contact_email) (candKeywords e) p.2, p.1, p.2)))

/-- Scoring, the ≥ 500 short-circuit (lines 313-323), the historical filter
and the oracle stage. -/
def scoreStage (e : Enh) (existing : List Opp) (hist : List Hist) (out : OracleOut) : FRResult :=
  match scoredSorted e existing with
  | t :: _ =>
    if 500 ≤ t.1 then ⟨some t.2.2.id, [], false, false⟩
    else oracleStage (relevantHistorical (lowerStr e.contact_email)
      (normStr (e.contact_company.getD "")) (candKeywords e) hist) out
  | [] => oracleStage (relevantHistorical (lowerStr e.contact_email)
      (normStr (e.contact_company.getD "")) (candKeywords e) hist) out

/-- The function `find_related_opportunity_with_ai` (lines 189-470). -/
def findRelated (e : Enh) (existing : List Opp) (hist : List Hist) (out : OracleOut) : FRResult :=
  if existing = [] ∧ hist = [] then ⟨none, [], false, false⟩
  else
    match companyPriorityMatch (normStr (e.contact_company.getD "")) existing with
    | some oid => ⟨some oid, [], false, false⟩
    | none =>
      match domainPriorityMatch (emailDomain e.contact_email) existing with
      | some oid => ⟨some oid, [], false, false⟩
      | none => scoreStage e existing hist out

/-! ## `find_earliest_mention` (lines 499-558)

The candidate record is consumed only by the prompt text, so it is not a
parameter here; the function's logic depends on the relevant historical
emails and the oracle's answer. -/

def emConfidenceThreshold : Nat := 70

def emSorted (rel : List Hist) : List Hist :=
  isortBy (fun a b => Nat.ble a.received_date b.received_date) rel

def findEarliestMention (rel : List Hist) (out : EMOut) : Option Nat :=
  if rel = [] then none
  else
    match out with
    | .failed => none
    | .verdict r =>
      match r.first_mention_email_number with
      | none => none
      | some n =>
        if n ≠ 0 ∧ emConfidenceThreshold ≤ r.confidence ∧ n ≤ ((emSorted rel).length : Int) then
          match pyIndex (emSorted rel) (n - 1) with
          | some h => some h.received_date
          | none => none
        else none

/-! ## Main workflow (`main`, lines 686-914)

External effects are inputs: the Gemini extraction result and the oracle
answers are carried per message in `MsgEnv`, and uuid generation is a
function `freshName` from a counter. -/

/-- One fetched inbox message, after HTML-to-text conversion. -/
structure Msg where
  id : String
  subject : String
  sender_address : String
  sender_name : String
  receivedDateTime : Nat
  conversationId : String
  body_text : String
deriving DecidableEq, Repr

/-- The per-message external-world answers: the parsed opportunity list from
`parse_email_for_opportunities` (empty on a parse failure), and, for the
i-th candidate of the message (index 0 for the no-candidate general
branch), the answers of the match oracle and of the earliest-mention
oracle.  Out-of-range positions default to a transport failure, which the
engine treats as no-match. -/
structure MsgEnv where
  cands : List Cand
  aiOuts : List OracleOut
  emOuts : List EMOut
deriving DecidableEq, Repr

def MsgEnv.ai (env : MsgEnv) (i : Nat) : OracleOut := env.aiOuts.getD i (.failed true)

def MsgEnv.em (env : MsgEnv) (i : Nat) : EMOut := env.emOuts.getD i .failed

/-- A row appended to the OpportunitiesMaster table (column order of
lines 808-813: id, contact name, company, email, blank, title, status,
first-mention date, conversation id, summary). -/
structure OppRow where
  opportunity_id : String
  contact_name : String
  contact_company : String
  contact_email : String
  blank_col : String
  title : String
  status : String
  first_mention : Nat
  conversation_id : String
  summary : String
deriving DecidableEq, Repr

/-- A row appended to the InteractionLog table (column order of
lines 776-779: opportunity id, occurred-at, kind, channel, actor, summary,
action item, note). -/
structure IntRow where
  opportunity_id : String
  occurred_at : Nat
  kind : String
  channel : String
  actor : String
  summary : String
  action_item : String
  note : String
deriving DecidableEq, Repr

/-- The in-run mutable state of one cycle: the working registry, the two
accumulated row lists, the processed-email set and the uuid counter.
`handled` records the ids of the messages the per-message loop ran on
(observable as the "Processing email" log line). -/
structure CycleState where
  registry : List Opp
  oppRows : List OppRow
  intRows : List IntRow
  processed : List String
  fresh : Nat
  handled : List String
deriving DecidableEq, Repr

/-- STEP 1 / STEP 2 of the per-candidate resolution (lines 771-788 and
839-856): `simple_company_match` first, the AI matcher only when it
returned a falsy id. -/
def resolveEnh (e : Enh) (registry : List Opp) (hist : List Hist) (out : OracleOut) : FRResult :=
  let sm := simpleCompanyMatch e registry
  if pyTruthy sm then ⟨sm, [], false, false⟩
  else findRelated e registry hist out

/-- The registry-compatible summary of a freshly created opportunity,
appended to the in-run list immediately (lines 820-826). -/
def candRegEntry (c : Cand) (subject oid : String) : Opp :=
  { id := oid, summary := c.summary.getD "N/A", title := c.title.getD subject,
    company := c.contact_company.getD "NA" }

/-- Processing of one extracted candidate of one message
(lines 762-827). -/
def processCandidate (hist : List Hist) (freshName : Nat → String) (msg : Msg)
    (ai : OracleOut) (em : EMOut) (st : CycleState) (c : Cand) : CycleState :=
  let senderEmail := lowerStr msg.sender_address
  let e := mkEnh c senderEmail msg.sender_name
  let fr := resolveEnh e st.registry hist ai
  if pyTruthy fr.matchId then
    { st with intRows := st.intRows ++
        [⟨fr.matchId.getD "", msg.receivedDateTime, "Follow-up", "Email", msg.sender_name,
          strTake (c.summary.getD "N/A") 500, c.action_item.getD "N/A", ""⟩] }
  else
    let oid := freshName st.fresh
    let firstMention := (findEarliestMention fr.relevant em).getD msg.receivedDateTime
    { st with
      oppRows := st.oppRows ++
        [⟨oid, c.contact_name.getD msg.sender_name, c.contact_company.getD "NA",
          trimStr e.contact_email, "", c.title.getD msg.subject, "New Lead", firstMention,
          msg.conversationId, c.summary.getD "N/A"⟩],
      intRows := st.intRows ++
        [⟨oid, msg.receivedDateTime, "New Lead", "Email", msg.sender_name,
          strTake (c.summary.getD "N/A") 500, c.action_item.getD "N/A", ""⟩],
      registry := st.registry ++ [candRegEntry c msg.subject oid],
      fresh := st.fresh + 1 }

/-- Processing of a message with no extracted candidates
(lines 828-894): the message itself is treated as one generic candidate
with company "NA". -/
def processGeneral (hist : List Hist) (freshName : Nat → String) (msg : Msg)
    (ai : OracleOut) (em : EMOut) (st : CycleState) : CycleState :=
  let senderEmail := lowerStr msg.sender_address
  let bodyPart := strTake msg.body_text 500
  let temp : Enh :=
    { title := some msg.subject
      summary := some bodyPart
      action_item := none
      contact_name := none
      contact_company := some "NA"
      contact_email := senderEmail
      sender_name := msg.sender_name }
  let fr := resolveEnh temp st.registry hist ai
  if pyTruthy fr.matchId then
    { st with intRows := st.intRows ++
        [⟨fr.matchId.getD "", msg.receivedDateTime, "General Communication", "Email",
          msg.sender_name, bodyPart, "Review", ""⟩] }
  else
    let oid := freshName st.fresh
    let firstMention := (findEarliestMention fr.relevant em).getD msg.receivedDateTime
    { st with
      oppRows := st.oppRows ++
        [⟨oid, msg.sender_name, "NA", senderEmail, "", msg.subject, "General Communication",
          firstMention, msg.conversationId, bodyPart⟩],
      intRows := st.intRows ++
        [⟨oid, msg.receivedDateTime, "General Communication", "Email", msg.sender_name,
          bodyPart, "Review", ""⟩],
      registry := st.registry ++ [⟨oid, bodyPart, msg.subject, "NA"⟩],
      fresh := st.fresh + 1 }

/-- Processing of one new message (lines 743-897): all candidates in order
when extraction produced any, otherwise the general branch; finally the
message id is added to the processed set. -/
def processMessage (hist : List Hist) (freshName : Nat → String)
    (st : CycleState) (p : Msg × MsgEnv) : CycleState :=
  let (msg, env) := p
  let st1 := { st with handled := st.handled ++ [msg.id] }
  let st2 :=
    if env.cands ≠ [] then
      env.cands.enum.foldl
        (fun s q => processCandidate hist freshName msg (env.ai q.1) (env.em q.1) s q.2) st1
    else processGeneral hist freshName msg (env.ai 0) (env.em 0) st1
  { st2 with processed := pySetAdd st2.processed msg.id }

/-- The sort `messages.sort(key=receivedDateTime)` followed by the processed-id filter
(lines 718-730). -/
def newMessages (processed : List String) (batch : List (Msg × MsgEnv)) : List (Msg × MsgEnv) :=
  (isortBy (fun a b => Nat.ble a.1.receivedDateTime b.1.receivedDateTime) batch).filter
    (fun p => decide (¬ p.1.id ∈ processed))

def initState (processed0 : List String) (registry0 : List Opp) : CycleState :=
  { registry := registry0, oppRows := [], intRows := [], processed := processed0,
    fresh := 0, handled := [] }

/-- One full batch cycle over the fetched window, before the Excel writes
and the state save. -/
def processCycle (processed0 : List String) (registry0 : List Opp) (hist : List Hist)
    (freshName : Nat → String) (batch : List (Msg × MsgEnv)) : CycleState :=
  (newMessages processed0 batch).foldl (processMessage hist freshName)
    (initState processed0 registry0)

/-! ## Excel writes and state persistence (`append_rows_to_excel`
lines 571-592 and the tail of `main`, lines 898-905)

Each row insertion is one POST; `post i` is the outcome of the i-th call
for the table: `.error ()` models a raised transport exception (which
propagates out of the cycle), `.ok s` models a response with HTTP status
`s` — a status other than 201 is only logged, and the loop continues. -/

def appendLoop (post : Nat → Except Unit Nat) : Nat → Nat → Except Unit (List Nat)
  | _, 0 => .ok []
  | k, n + 1 => do
    let s ← post k
    let rest ← appendLoop post (k + 1) n
    pure (s :: rest)

/-- The writer `append_rows_to_excel`: one POST per row (the list is reversed before
posting, which does not change the number or outcomes of the calls made
here); returns the statuses collected, or the first raised exception. -/
def appendRowsToExcel {α : Type} (rows : List α) (post : Nat → Except Unit Nat) :
    Except Unit (List Nat) :=
  appendLoop post 0 rows.length

/-- What the tail of `main` durably wrote: the row-write statuses and the
persisted processing state (`save_processed_emails` /
`write_last_run_timestamp`). -/
structure CommitResult where
  oppStatuses : List Nat
  intStatuses : List Nat
  savedProcessed : Option (List String)
  savedTimestamp : Bool
deriving DecidableEq, Repr

/-- Lines 898-905: write both tables if any rows were produced, then save the
processed-email set and the timestamp unconditionally; an uncaught
exception from a write aborts the cycle before anything is persisted. -/
def commitCycle (st : CycleState) (postOpp postInt : Nat → Except Unit Nat) :
    Except Unit CommitResult := do
  let statuses ←
    if st.oppRows ≠ [] ∨ st.intRows ≠ [] then do
      let s1 ← appendRowsToExcel st.oppRows postOpp
      let s2 ← appendRowsToExcel st.intRows postInt
      pure (s1, s2)
    else pure ([], [])
  pure ⟨statuses.1, statuses.2, some st.processed, true⟩

/-! ## Supporting lemmas -/

theorem mem_of_insSorted {α : Type} {le : α → α → Bool} {x a : α} {l : List α}
    (h : x ∈ insSorted le a l) : x = a ∨ x ∈ l := by
  induction l with
  | nil => simpa [insSorted] using h
  | cons y ys ih =>
    simp only [insSorted] at h
    split at h
    · simpa using h
    · rcases List.mem_cons.1 h with h1 | h2
      · exact Or.inr (by simp [h1])
      · rcases ih h2 with h3 | h4
        · exact Or.inl h3
        · exact Or.inr (List.mem_cons_of_mem _ h4)

theorem mem_of_isortBy {α : Type} {le : α → α → Bool} {x : α} :
    ∀ {l : List α}, x ∈ isortBy le l → x ∈ l := by
  intro l
  induction l with
  | nil => simp [isortBy]
  | cons a as ih =>
    intro h
    rcases mem_of_insSorted h with h1 | h2
    · simp [h1]
    · exact List.mem_cons_of_mem _ (ih h2)

theorem mem_pySetAdd_self (s : List String) (x : String) : x ∈ pySetAdd s x := by
  unfold pySetAdd; split
  · assumption
  · simp

theorem mem_pySetAdd_of_mem {s : List String} {y : String} (x : String) (h : y ∈ s) :
    y ∈ pySetAdd s x := by
  unfold pySetAdd; split
  · exact h
  · exact List.mem_append_left _ h

theorem processCandidate_processed (hist : List Hist) (f : Nat → String) (msg : Msg)
    (ai : OracleOut) (em : EMOut) (st : CycleState) (c : Cand) :
    (processCandidate hist f msg ai em st c).processed = st.processed := by
  cases h : pyTruthy (resolveEnh (mkEnh c (lowerStr msg.sender_address) msg.sender_name)
      st.registry hist ai).matchId <;> simp [processCandidate, h]

theorem processCandidate_handled (hist : List Hist) (f : Nat → String) (msg : Msg)
    (ai : OracleOut) (em : EMOut) (st : CycleState) (c : Cand) :
    (processCandidate hist f msg ai em st c).handled = st.handled := by
  cases h : pyTruthy (resolveEnh (mkEnh c (lowerStr msg.sender_address) msg.sender_name)
      st.registry hist ai).matchId <;> simp [processCandidate, h]

theorem processGeneral_processed (hist : List Hist) (f : Nat → String) (msg : Msg)
    (ai : OracleOut) (em : EMOut) (st : CycleState) :
    (processGeneral hist f msg ai em st).processed = st.processed := by
  simp only [processGeneral]
  split <;> rfl

theorem processGeneral_handled (hist : List Hist) (f : Nat → String) (msg : Msg)
    (ai : OracleOut) (em : EMOut) (st : CycleState) :
    (processGeneral hist f msg ai em st).handled = st.handled := by
  simp only [processGeneral]
  split <;> rfl

theorem cands_foldl_processed (hist : List Hist) (f : Nat → String) (msg : Msg) (env : MsgEnv) :
    ∀ (l : List (Nat × Cand)) (st : CycleState),
      ((l.foldl (fun s q => processCandidate hist f msg (env.ai q.1) (env.em q.1) s q.2)
        st)).processed = st.processed := by
  intro l
  induction l with
  | nil => intro st; rfl
  | cons q qs ih =>
    intro st
    simp only [List.foldl_cons]
    rw [ih, processCandidate_processed]

theorem cands_foldl_handled (hist : List Hist) (f : Nat → String) (msg : Msg) (env : MsgEnv) :
    ∀ (l : List (Nat × Cand)) (st : CycleState),
      ((l.foldl (fun s q => processCandidate hist f msg (env.ai q.1) (env.em q.1) s q.2)
        st)).handled = st.handled := by
  intro l
  induction l with
  | nil => intro st; rfl
  | cons q qs ih =>
    intro st
    simp only [List.foldl_cons]
    rw [ih, processCandidate_handled]

theorem processMessage_processed (hist : List Hist) (f : Nat → String) (st : CycleState)
    (p : Msg × MsgEnv) :
    (processMessage hist f st p).processed = pySetAdd st.processed p.1.id := by
  rcases p with ⟨msg, env⟩
  by_cases h : env.cands = [] <;>
    simp [processMessage, h, cands_foldl_processed, processGeneral_processed]

theorem processMessage_handled (hist : List Hist) (f : Nat → String) (st : CycleState)
    (p : Msg × MsgEnv) :
    (processMessage hist f st p).handled = st.handled ++ [p.1.id] := by
  rcases p with ⟨msg, env⟩
  by_cases h : env.cands = [] <;>
    simp [processMessage, h, cands_foldl_handled, processGeneral_handled]

theorem foldl_processMessage_mono (hist : List Hist) (f : Nat → String) :
    ∀ (l : List (Msg × MsgEnv)) (st : CycleState) (y : String), y ∈ st.processed →
      y ∈ (l.foldl (processMessage hist f) st).processed := by
  intro l
  induction l with
  | nil => intro st y h; exact h
  | cons p ps ih =>
    intro st y h
    simp only [List.foldl_cons]
    exact ih _ _ (by rw [processMessage_processed]; exact mem_pySetAdd_of_mem _ h)

theorem foldl_processMessage_mem (hist : List Hist) (f : Nat → String) :
    ∀ (l : List (Msg × MsgEnv)) (st : CycleState) (m : Msg × MsgEnv), m ∈ l →
      m.1.id ∈ (l.foldl (processMessage hist f) st).processed := by
  intro l
  induction l with
  | nil => intro st m h; cases h
  | cons p ps ih =>
    intro st m h
    rcases List.mem_cons.1 h with h1 | h2
    · simp only [List.foldl_cons]
      subst h1
      exact foldl_processMessage_mono hist f ps _ _
        (by rw [processMessage_processed]; exact mem_pySetAdd_self _ _)
    · simp only [List.foldl_cons]
      exact ih _ _ h2

theorem foldl_processMessage_handled (hist : List Hist) (f : Nat → String) :
    ∀ (l : List (Msg × MsgEnv)) (st : CycleState),
      (l.foldl (processMessage hist f) st).handled = st.handled ++ l.map (fun p => p.1.id) := by
  intro l
  induction l with
  | nil => intro st; simp
  | cons p ps ih =>
    intro st
    simp only [List.foldl_cons, List.map_cons]
    rw [ih, processMessage_handled]
    simp

theorem mem_newMessages {processed : List String} {batch : List (Msg × MsgEnv)}
    {q : Msg × MsgEnv} (h : q ∈ newMessages processed batch) :
    q ∈ batch ∧ ¬ q.1.id ∈ processed := by
  unfold newMessages at h
  have h2 := List.mem_filter.1 h
  exact ⟨mem_of_isortBy h2.1, by simpa using h2.2⟩

theorem newMessages_eq_nil {processed : List String} {batch : List (Msg × MsgEnv)}
    (h : ∀ q ∈ batch, q.1.id ∈ processed) : newMessages processed batch = [] := by
  unfold newMessages
  rw [List.filter_eq_nil_iff]
  intro a ha
  simpa using h a (mem_of_isortBy ha)

theorem mem_of_pyIndex {α : Type} {l : List α} {i : Int} {x : α}
    (h : pyIndex l i = some x) : x ∈ l := by
  unfold pyIndex at h
  split at h
  · exact List.get?_mem h
  · split at h
    · exact List.get?_mem h
    · cases h

theorem appendLoop_ok (post : Nat → Except Unit Nat) :
    ∀ (n k : Nat), (∀ i, i < n → (post (k + i)).isOk = true) →
      ∃ l, appendLoop post k n = .ok l := by
  intro n
  induction n with
  | zero => intro k _; exact ⟨[], rfl⟩
  | succ m ih =>
    intro k h
    have h0 : (post k).isOk = true := by simpa using h 0 (Nat.succ_pos m)
    obtain ⟨s, hs⟩ : ∃ s, post k = .ok s := by
      cases hp : post k
      · rw [hp] at h0; cases h0
      · exact ⟨_, rfl⟩
    obtain ⟨l, hl⟩ := ih (k + 1) (by
      intro i hi
      have := h (i + 1) (Nat.succ_lt_succ hi)
      simpa [Nat.add_assoc, Nat.add_comm 1 i] using this)
    refine ⟨s :: l, ?_⟩
    simp only [appendLoop, hs, hl]
    rfl

theorem foldl_bool_add_count {α : Type} (p : α → Bool) (c : Nat) :
    ∀ (l : List α) (s : Nat),
      l.foldl (fun a k => if p k then a + c else a) s = s + c * l.countP p := by
  intro l
  induction l with
  | nil => intro s; simp
  | cons x xs ih =>
    intro s
    simp only [List.foldl_cons, List.countP_cons]
    by_cases h : p x = true
    · rw [if_pos h, ih, if_pos h]
      ring
    · rw [if_neg h, ih, if_neg h]
      ring

/-! ## Concrete fixtures shared by witnesses and counterexamples -/

def wFresh : Nat → String := fun n => if n = 0 then "OPP-0" else "OPP-1"

def wEnvEmpty : MsgEnv := ⟨[], [], []⟩

def wMsgA : Msg := ⟨"m1", "hello", "a@b.c", "Ann", 1, "cv1", "world"⟩

def wMsgB : Msg := ⟨"m2", "xy", "a@b.c", "Ann", 2, "cv2", "qq"⟩

def wHist100 : Hist := ⟨"h1", "s", "b", "x@y", "X", 100, "cv"⟩

/-! ## Claim C1 -/

/-- C1 (counterexample): with one processed message producing one
opportunity row, a cycle whose opportunity-table write is rejected with
HTTP status 500 (not the expected 201, i.e. the downstream row write
failed) still persists the event id "m1" as processed — the set and the
timestamp are saved.  This contradicts the claim that no event of the
cycle is persisted as processed when a downstream row write fails. -/
theorem c1_counterexample :
    commitCycle (processCycle [] [] [] wFresh [(wMsgA, wEnvEmpty)])
        (fun _ => .ok 500) (fun _ => .ok 201)
      = .ok ⟨[500], [201], some ["m1"], true⟩ ∧ (500 : Nat) ≠ 201 :=
  ⟨rfl, by decide⟩

/-- C1 (amended): the processing state is persisted exactly when every row
POST returns (no transport exception), regardless of the returned HTTP
statuses: (1) if all POSTs of both tables return, the cycle commits and
saves the full processed set and the timestamp even if some write came
back with a failure status; (2) a transport exception raised by a write
aborts the cycle before anything is persisted. -/
theorem c1_amended (st : CycleState) (postOpp postInt : Nat → Except Unit Nat)
    (h1 : ∀ i, i < st.oppRows.length → (postOpp i).isOk = true)
    (h2 : ∀ i, i < st.intRows.length → (postInt i).isOk = true) :
    (∃ res, commitCycle st postOpp postInt = .ok res ∧
        res.savedProcessed = some st.processed ∧ res.savedTimestamp = true) ∧
    (st.oppRows ≠ [] → commitCycle st (fun _ => .error ()) postInt = .error ()) := by
  constructor
  · by_cases hc : st.oppRows ≠ [] ∨ st.intRows ≠ []
    · obtain ⟨l1, hl1⟩ := appendLoop_ok postOpp st.oppRows.length 0
        (by intro i hi; simpa using h1 i hi)
      obtain ⟨l2, hl2⟩ := appendLoop_ok postInt st.intRows.length 0
        (by intro i hi; simpa using h2 i hi)
      refine ⟨⟨l1, l2, some st.processed, true⟩, ?_, rfl, rfl⟩
      simp only [commitCycle, appendRowsToExcel, if_pos hc, hl1, hl2]
      rfl
    · refine ⟨⟨[], [], some st.processed, true⟩, ?_, rfl, rfl⟩
      simp only [commitCycle, if_neg hc]
      rfl
  · intro hne
    obtain ⟨a, t, hat⟩ := List.exists_cons_of_ne_nil hne
    simp only [commitCycle, appendRowsToExcel, if_pos (Or.inl hne), hat]
    rfl

/-- C1 (witness): the amended theorem applied to the concrete one-message
cycle: a transport exception on the opportunity write aborts the commit. -/
theorem c1_amended_witness :
    commitCycle (processCycle [] [] [] wFresh [(wMsgA, wEnvEmpty)]) (fun _ => .error ())
        (fun _ => .ok 201) = .error () :=
  (c1_amended (processCycle [] [] [] wFresh [(wMsgA, wEnvEmpty)]) (fun _ => .ok 201)
      (fun _ => .ok 201) (fun _ _ => rfl) (fun _ _ => rfl)).2 (by decide)

/-! ## Claim C2 -/

/-- C2: idempotence per event id.  If a message `m` is actually processed in
cycle 1 (it survived the processed-id filter), then (a) its id is in the
processed set the cycle persists, (b) in any later cycle started from that
persisted set, no message with that id survives the filter — the event is
skipped entirely — and (c) a batch consisting solely of already-processed
ids is a complete no-op: the cycle emits no opportunity rows, no
interaction rows, and leaves the registry and the processed set
untouched. -/
theorem c2_idempotent_skip (p0 : List String) (reg0 : List Opp) (hist : List Hist)
    (f : Nat → String) (batch1 batch2 : List (Msg × MsgEnv)) (m : Msg × MsgEnv)
    (h : m ∈ newMessages p0 batch1) :
    m.1.id ∈ (processCycle p0 reg0 hist f batch1).processed ∧
    (∀ q ∈ newMessages (processCycle p0 reg0 hist f batch1).processed batch2,
        q.1.id ≠ m.1.id) ∧
    ((∀ q ∈ batch2, q.1.id ∈ (processCycle p0 reg0 hist f batch1).processed) →
      processCycle (processCycle p0 reg0 hist f batch1).processed reg0 hist f batch2
        = initState (processCycle p0 reg0 hist f batch1).processed reg0) := by
  have hmem : m.1.id ∈ (processCycle p0 reg0 hist f batch1).processed := by
    unfold processCycle
    exact foldl_processMessage_mem hist f _ _ m h
  refine ⟨hmem, ?_, ?_⟩
  · intro q hq heq
    have h2 := (mem_newMessages hq).2
    rw [heq] at h2
    exact h2 hmem
  · intro hall
    have hnil : newMessages (processCycle p0 reg0 hist f batch1).processed batch2 = [] :=
      newMessages_eq_nil hall
    show List.foldl (processMessage hist f)
        (initState (processCycle p0 reg0 hist f batch1).processed reg0)
        (newMessages (processCycle p0 reg0 hist f batch1).processed batch2)
      = initState (processCycle p0 reg0 hist f batch1).processed reg0
    rw [hnil]
    rfl

/-- C2 (witness): the theorem applied to a concrete one-message batch,
re-submitted as the whole of cycle 2. -/
theorem c2_idempotent_skip_witness :
    "m1" ∈ (processCycle [] [] [] wFresh [(wMsgA, wEnvEmpty)]).processed ∧
    processCycle (processCycle [] [] [] wFresh [(wMsgA, wEnvEmpty)]).processed [] [] wFresh
        [(wMsgA, wEnvEmpty)]
      = initState (processCycle [] [] [] wFresh [(wMsgA, wEnvEmpty)]).processed [] := by
  have h := c2_idempotent_skip [] [] [] wFresh [(wMsgA, wEnvEmpty)] [(wMsgA, wEnvEmpty)]
      (wMsgA, wEnvEmpty) (by decide)
  exact ⟨h.1, h.2.2 (by decide)⟩

/-! ## Claim C3 -/

/-- C3 (counterexample): a relevant historical email dated 100 that postdates
the triggering event (received at 50), selected by the earliest-mention
oracle with confidence 0.9, becomes the new opportunity's
`first_mention_at` = 100 > 50 — the resolved first mention is *later* than
the triggering event's `received_at`, contradicting the claimed
monotonicity.  (The source never compares the historical message's
timestamp with the event's.) -/
theorem c3_counterexample :
    (findEarliestMention [wHist100] (.verdict ⟨some 1, 90⟩)).getD 50 = 100 ∧
    ¬ ((findEarliestMention [wHist100] (.verdict ⟨some 1, 90⟩)).getD 50 ≤ 50) :=
  ⟨by decide, by decide⟩

/-- C3 (amended): the resolved first-mention date is either the timestamp of
one of the relevant historical messages or the triggering event's
`received_at`; consequently it is ≤ `received_at` whenever no relevant
historical message postdates the event (the claimed monotonicity holds
only under that hypothesis — historical emails are fetched up to the
present and are not filtered by date relative to the event). -/
theorem c3_amended (rel : List Hist) (out : EMOut) (receivedAt : Nat)
    (h : ∀ x ∈ rel, x.received_date ≤ receivedAt) :
    (findEarliestMention rel out).getD receivedAt ≤ receivedAt := by
  rcases hfe : findEarliestMention rel out with _ | d
  · simp
  · have hex : ∃ x ∈ rel, x.received_date = d := by
      unfold findEarliestMention at hfe
      split at hfe
      · cases hfe
      · cases out with
        | failed => simp at hfe
        | verdict r =>
          dsimp only at hfe
          rcases hn : r.first_mention_email_number with _ | n
          all_goals rw [hn] at hfe
          · simp at hfe
          · dsimp only at hfe
            split at hfe
            · rcases hpi : pyIndex (emSorted rel) (n - 1) with _ | x
              all_goals rw [hpi] at hfe
              · simp at hfe
              · refine ⟨x, mem_of_isortBy (mem_of_pyIndex hpi), ?_⟩
                injection hfe with hh
            · cases hfe
    obtain ⟨x, hx, hxd⟩ := hex
    simpa [hxd] using h x hx

/-- C3 (witness): the amended theorem at a concrete input where the only
relevant historical email (dated 100) predates the event (received at
200). -/
theorem c3_amended_witness :
    (findEarliestMention [wHist100] (.verdict ⟨some 1, 90⟩)).getD 200 ≤ 200 :=
  c3_amended [wHist100] (.verdict ⟨some 1, 90⟩) 200 (by decide)

/-! ## Claim C4 -/

/-- C4 (counterexample): the claim quantifies over every company `C`, but the
deterministic tier's guard never matches an empty or literal-"na" company.
Two events in one batch that both yield a generic candidate with company
"NA": the first creates opportunity OPP-0 for company "NA" and appends it
to the registry, yet the second — whose `contact_company` equals the same
"NA" — does not resolve to `MATCHED(OPP-0)`; it creates a second record. -/
theorem c4_counterexample :
    (processCycle [] [] [] wFresh [(wMsgA, wEnvEmpty), (wMsgB, wEnvEmpty)]).oppRows.map
        (fun r => (r.opportunity_id, r.contact_company))
      = [("OPP-0", "NA"), ("OPP-1", "NA")] ∧
    (processCycle [] [] [] wFresh [(wMsgA, wEnvEmpty), (wMsgB, wEnvEmpty)]).oppRows.length
      = 2 :=
  ⟨by decide, by decide⟩

/-- C4 (amended): read-your-writes holds for companies that the deterministic
guard accepts.  (1) Every CREATE transition appends the new opportunity's
registry summary to the in-run registry within the same candidate step, so
it is visible before the next candidate is resolved.  (2) If an earlier
candidate with (normalized) company `nc` — nonempty and not "na" — went
through CREATE (so no registry entry at that time matched `nc`
deterministically, `regA.find? (scmPred nc) = none`) producing entry `O`,
then any later candidate in the batch whose normalized company equals `nc`
resolves via `simple_company_match` to `O` — the first matching entry —
and only emits a Follow-up interaction; no second record is created.
(The registry only grows by appending, so later creates sit after `O`.) -/
theorem c4_amended :
    (∀ (hist : List Hist) (f : Nat → String) (msg : Msg) (ai : OracleOut) (em : EMOut)
        (st : CycleState) (c : Cand),
        pyTruthy (resolveEnh (mkEnh c (lowerStr msg.sender_address) msg.sender_name)
            st.registry hist ai).matchId = false →
        (processCandidate hist f msg ai em st c).registry
          = st.registry ++ [candRegEntry c msg.subject (f st.fresh)]) ∧
    (∀ (nc : String) (regA rest : List Opp) (O : Opp) (hist : List Hist) (f : Nat → String)
        (msg : Msg) (ai : OracleOut) (em : EMOut) (st : CycleState) (c : Cand),
        nc ≠ "" → nc ≠ "na" →
        normStr (c.contact_company.getD "") = nc →
        normStr O.company = nc → O.id ≠ "" →
        regA.find? (scmPred nc) = none →
        st.registry = regA ++ O :: rest →
        processCandidate hist f msg ai em st c
          = { st with intRows := st.intRows ++
              [⟨O.id, msg.receivedDateTime, "Follow-up", "Email", msg.sender_name,
                strTake (c.summary.getD "N/A") 500, c.action_item.getD "N/A", ""⟩] }) := by
  constructor
  · intro hist f msg ai em st c hfalse
    simp [processCandidate, hfalse]
  · intro nc regA rest O hist f msg ai em st c h1 h2 hcc hO hOid hfindA hreg
    have hcc' : normStr ((mkEnh c (lowerStr msg.sender_address)
        msg.sender_name).contact_company.getD "") = nc := hcc
    have hsm : simpleCompanyMatch (mkEnh c (lowerStr msg.sender_address) msg.sender_name)
        st.registry = some O.id := by
      simp only [simpleCompanyMatch, hcc']
      rw [if_neg (by simp [h1, h2])]
      rw [hreg, List.find?_append, hfindA]
      rw [List.find?_cons_of_pos _ (by simp [scmPred, hO])]
      rfl
    have hfr : resolveEnh (mkEnh c (lowerStr msg.sender_address) msg.sender_name)
        st.registry hist ai = ⟨some O.id, [], false, false⟩ := by
      simp only [resolveEnh, hsm]
      rw [if_pos (by simp [pyTruthy, hOid])]
    simp only [processCandidate, hfr]
    rw [if_pos (by simp [pyTruthy, hOid])]
    rfl

/-- C4 (witness): both parts of the amended theorem at concrete inputs: a
create against an empty registry appends its entry, and a candidate with
company "Acme " (normalizing to "acme") matches the entry created for
"acme" and only logs a Follow-up interaction. -/
theorem c4_amended_witness :
    (processCandidate [] wFresh wMsgA (.failed true) .failed (initState [] [])
        ⟨none, none, none, none, none, none⟩).registry
      = [] ++ [candRegEntry ⟨none, none, none, none, none, none⟩ "hello" "OPP-0"] ∧
    processCandidate [] wFresh wMsgA (.failed true) .failed
        ⟨[⟨"O1", "", "", "acme"⟩], [], [], [], 0, []⟩
        ⟨none, none, none, none, some "Acme ", none⟩
      = ⟨[⟨"O1", "", "", "acme"⟩], [],
         [⟨"O1", 1, "Follow-up", "Email", "Ann", "N/A", "N/A", ""⟩], [], 0, []⟩ := by
  constructor
  · exact c4_amended.1 [] wFresh wMsgA (.failed true) .failed (initState [] [])
      ⟨none, none, none, none, none, none⟩ (by decide)
  · exact c4_amended.2 "acme" [] [] ⟨"O1", "", "", "acme"⟩ [] wFresh wMsgA (.failed true)
      .failed ⟨[⟨"O1", "", "", "acme"⟩], [], [], [], 0, []⟩
      ⟨none, none, none, none, some "Acme ", none⟩
      (by decide) (by decide) (by decide) (by decide) (by decide) (by decide) (by decide)

/-! ## Claim C5 -/

/-- C5 (counterexample): the claim's "exact equality implies a deterministic
match, never the oracle" fails for the literal company "NA": the sole
registry entry's company equals the candidate's ("na" after
normalization), satisfying the deterministic predicate, yet the guard
skips both deterministic tiers and the scoring short-circuit scores 0, so
the engine consults the semantic oracle (`oracleCalled = true`) and — the
call failing here — does not match. -/
theorem c5_counterexample :
    scmPred (normStr "NA") ⟨"O1", "", "", "NA"⟩ = true ∧
    resolveEnh ⟨none, none, none, none, some "NA", "", "S"⟩ [⟨"O1", "", "", "NA"⟩] []
        (.failed false)
      = ⟨none, [], true, false⟩ :=
  ⟨by decide, by decide⟩

/-- C5 (amended): for every candidate whose trimmed lower-cased company is
nonempty and not the literal "na", if some registry entry matches it
exactly or by mutual containment with both lengths ≥ 4 (`scmPred`), the
engine resolves to the first such entry's id via `simple_company_match` —
before `find_related_opportunity_with_ai` ever runs — so the semantic
oracle is not consulted (provided registry ids are non-empty, since a
falsy id would fall through to the AI tier). -/
theorem c5_amended (e : Enh) (reg : List Opp) (hist : List Hist) (ai : OracleOut)
    (h1 : normStr (e.contact_company.getD "") ≠ "")
    (h2 : normStr (e.contact_company.getD "") ≠ "na")
    (h3 : ∃ o ∈ reg, scmPred (normStr (e.contact_company.getD "")) o = true)
    (h4 : ∀ o ∈ reg, o.id ≠ "") :
    (reg.find? (scmPred (normStr (e.contact_company.getD "")))).isSome = true ∧
    resolveEnh e reg hist ai
      = ⟨(reg.find? (scmPred (normStr (e.contact_company.getD "")))).map (fun o => o.id),
         [], false, false⟩ := by
  have hsome : (reg.find? (scmPred (normStr (e.contact_company.getD "")))).isSome = true :=
    List.find?_isSome.2 h3
  obtain ⟨o, heq⟩ := Option.isSome_iff_exists.1 hsome
  have hmemo : o ∈ reg := List.mem_of_find?_eq_some heq
  refine ⟨hsome, ?_⟩
  have hsm : simpleCompanyMatch e reg = some o.id := by
    simp only [simpleCompanyMatch]
    rw [if_neg (by simp [h1, h2]), heq]
    rfl
  simp only [resolveEnh, hsm, heq]
  rw [if_pos (by simp [pyTruthy, h4 o hmemo])]
  rfl

/-- C5 (witness): the amended theorem at the spec's own scenario, company
"Globex Corp" against a registry entry with the same company. -/
theorem c5_amended_witness :
    (List.find? (scmPred (normStr
        ((⟨none, none, none, none, some "Globex Corp", "", "S"⟩ : Enh).contact_company.getD "")))
        [⟨"O1", "", "Website Redesign", "Globex Corp"⟩]).isSome = true ∧
    resolveEnh ⟨none, none, none, none, some "Globex Corp", "", "S"⟩
        [⟨"O1", "", "Website Redesign", "Globex Corp"⟩] [] (.failed true)
      = ⟨(List.find? (scmPred (normStr
            ((⟨none, none, none, none, some "Globex Corp", "", "S"⟩ : Enh).contact_company.getD "")))
            [⟨"O1", "", "Website Redesign", "Globex Corp"⟩]).map (fun o => o.id),
         [], false, false⟩ :=
  c5_amended ⟨none, none, none, none, some "Globex Corp", "", "S"⟩
    [⟨"O1", "", "Website Redesign", "Globex Corp"⟩] [] (.failed true)
    (by decide) (by decide) (by decide) (by decide)

/-! ## Claim C10 -/

/-- C10: inside `find_related_opportunity_with_ai`, when the company tier
(PRIORITY 1) produced no match and the candidate has a non-empty email
domain, the first registry entry whose lower-cased title+summary text
contains that domain is returned immediately: the result is that entry's
id with no relevant-historical list, no oracle call (`oracleCalled =
false`, so no relevance scores or confidence gate were involved), for any
oracle answer `out`. -/
theorem c10_domain_match (e : Enh) (reg : List Opp) (hist : List Hist) (out : OracleOut)
    (h1 : companyPriorityMatch (normStr (e.contact_company.getD "")) reg = none)
    (h2 : emailDomain e.contact_email ≠ "")
    (h3 : ∃ o ∈ reg, substrB (emailDomain e.contact_email) (titleSummaryText o) = true) :
    (reg.find? (fun o => substrB (emailDomain e.contact_email) (titleSummaryText o))).isSome
        = true ∧
    findRelated e reg hist out
      = ⟨(reg.find? (fun o => substrB (emailDomain e.contact_email) (titleSummaryText o))).map
          (fun o => o.id), [], false, false⟩ := by
  have hsome := List.find?_isSome.2 h3
  obtain ⟨o, heq⟩ := Option.isSome_iff_exists.1 hsome
  have hne : ¬ (reg = [] ∧ hist = []) := by
    rintro ⟨rfl, -⟩
    obtain ⟨o, ho, -⟩ := h3
    cases ho
  refine ⟨hsome, ?_⟩
  simp only [findRelated, h1, heq]
  rw [if_neg hne]
  simp only [domainPriorityMatch]
  rw [if_pos h2, heq]
  rfl

/-- C10 (witness): a candidate from `bob@acme.io` with no extracted company,
against a registry entry whose summary mentions the domain. -/
theorem c10_domain_match_witness :
    (List.find? (fun o => substrB (emailDomain
        (⟨none, none, none, none, none, "bob@acme.io", "S"⟩ : Enh).contact_email)
        (titleSummaryText o)) [⟨"O9", "contact at acme.io", "T", "Foo"⟩]).isSome = true ∧
    findRelated ⟨none, none, none, none, none, "bob@acme.io", "S"⟩
        [⟨"O9", "contact at acme.io", "T", "Foo"⟩] [] (.failed true)
      = ⟨(List.find? (fun o => substrB (emailDomain
            (⟨none, none, none, none, none, "bob@acme.io", "S"⟩ : Enh).contact_email)
            (titleSummaryText o)) [⟨"O9", "contact at acme.io", "T", "Foo"⟩]).map
          (fun o => o.id), [], false, false⟩ :=
  c10_domain_match ⟨none, none, none, none, none, "bob@acme.io", "S"⟩
    [⟨"O9", "contact at acme.io", "T", "Foo"⟩] [] (.failed true)
    (by decide) (by decide) (by decide)

/-! ## Claim C6 -/

/-- When control reaches the `generate_content` call (`oracleCalled`), the
result of `find_related_opportunity_with_ai` is exactly the oracle stage
over the relevant-historical slice; the early company/domain returns and
the ≥ 500 short-circuit did not fire. -/
theorem findRelated_oracle_form (e : Enh) (reg : List Opp) (hist : List Hist) (out : OracleOut)
    (h : (findRelated e reg hist out).oracleCalled = true) :
    findRelated e reg hist out
      = oracleStage (relevantHistorical (lowerStr e.contact_email)
          (normStr (e.contact_company.getD "")) (candKeywords e) hist) out := by
  unfold findRelated at h ⊢
  by_cases hne : reg = [] ∧ hist = []
  · rw [if_pos hne] at h
    simp at h
  · rw [if_neg hne] at h ⊢
    rcases hcp : companyPriorityMatch (normStr (e.contact_company.getD "")) reg with _ | oid
    · rw [hcp] at h
      rcases hdp : domainPriorityMatch (emailDomain e.contact_email) reg with _ | oid2
      · rw [hdp] at h
        have hsc : (scoreStage e reg hist out).oracleCalled = true := h
        show scoreStage e reg hist out = _
        unfold scoreStage at hsc ⊢
        rcases hs : scoredSorted e reg with _ | ⟨t, ts⟩
        · rfl
        · rw [hs] at hsc
          by_cases h5 : 500 ≤ t.1
          · simp [h5] at hsc
          · show (if 500 ≤ t.1 then _ else _) = _
            exact if_neg h5
      · rw [hdp] at h
        simp at h
    · rw [hcp] at h
      simp at h

/-- The confidence gate of the oracle stage on a parsed verdict: the returned
id is the response's `opportunity_id` exactly when `match` is true and the
confidence reaches the threshold (otherwise nothing); a low-confidence
rejection is logged exactly when `match` is true below the threshold; and
the candidate is treated as matched downstream (truthy id) exactly when
additionally the response's id is present and non-empty. -/
theorem oracleStage_verdict (rel : List Hist) (r : OracleResp) :
    (oracleStage rel (.verdict r)).matchId
        = (if r.isMatch ∧ confidenceThreshold ≤ r.confidence then r.opportunity_id else none) ∧
    (oracleStage rel (.verdict r)).lowConfLogged
        = (r.isMatch && decide (r.confidence < confidenceThreshold)) ∧
    pyTruthy (oracleStage rel (.verdict r)).matchId
        = (r.isMatch && decide (confidenceThreshold ≤ r.confidence)
            && pyTruthy r.opportunity_id) := by
  rcases hm : r.isMatch
  · simp [oracleStage, hm, pyTruthy]
  · by_cases hc : confidenceThreshold ≤ r.confidence
    · have hnl : ¬ (r.confidence < confidenceThreshold) := Nat.not_lt.2 hc
      simp [oracleStage, hm, hc, hnl]
    · have hl : r.confidence < confidenceThreshold := Nat.not_le.1 hc
      simp [oracleStage, hm, hc, hl, pyTruthy]

/-- C6 (counterexample): oracle verdict `match = true` with confidence 0.9 —
far above the 0.4 threshold — but a `null` `opportunity_id`: the adapter
returns the null id, so the candidate transitions to CREATE (a new
opportunity row is emitted), contradicting the claim that `match ∧
confidence ≥ threshold` alone implies MATCHED. -/
theorem c6_counterexample :
    confidenceThreshold ≤ 90 ∧
    findRelated (mkEnh ⟨none, none, none, none, some "qqqq", none⟩ "s@dom.io" "S")
        [⟨"O1", "s", "t", "zzzz"⟩] [] (.verdict ⟨true, none, 90⟩)
      = ⟨none, [], true, false⟩ ∧
    (processCandidate [] wFresh ⟨"m3", "t3", "s@dom.io", "S", 3, "cv3", "b3"⟩
        (.verdict ⟨true, none, 90⟩) .failed (initState [] [⟨"O1", "s", "t", "zzzz"⟩])
        ⟨none, none, none, none, some "qqqq", none⟩).oppRows.length = 1 :=
  ⟨by decide, by decide, by decide⟩

/-- C6 (amended): when the oracle is actually consulted, the verdict is
accepted and its `opportunity_id` returned iff `match == true` and
`confidence ≥ 0.4`; the candidate ends up MATCHED (truthy id) iff
additionally the returned `opportunity_id` is non-null and non-empty —
otherwise it transitions to CREATE; and the low-confidence rejection is
logged exactly for `match == true` with confidence below the threshold. -/
theorem c6_amended (e : Enh) (reg : List Opp) (hist : List Hist) (r : OracleResp)
    (h : (findRelated e reg hist (.verdict r)).oracleCalled = true) :
    (findRelated e reg hist (.verdict r)).matchId
        = (if r.isMatch ∧ confidenceThreshold ≤ r.confidence then r.opportunity_id else none) ∧
    (findRelated e reg hist (.verdict r)).lowConfLogged
        = (r.isMatch && decide (r.confidence < confidenceThreshold)) ∧
    pyTruthy (findRelated e reg hist (.verdict r)).matchId
        = (r.isMatch && decide (confidenceThreshold ≤ r.confidence)
            && pyTruthy r.opportunity_id) := by
  rw [findRelated_oracle_form e reg hist (.verdict r) h]
  exact oracleStage_verdict _ r

/-- C6 (witness): the amended theorem at the spec's scenario — `match = true`,
confidence 0.3 below the 0.4 threshold — at a concrete candidate that
reaches the oracle: rejected, null id, logged as low-confidence. -/
theorem c6_amended_witness :
    (findRelated (mkEnh ⟨none, none, none, none, some "qqqq", none⟩ "s@dom.io" "S")
        [⟨"O1", "s", "t", "zzzz"⟩] [] (.verdict ⟨true, some "O2", 30⟩)).matchId
        = (if (true : Bool) ∧ confidenceThreshold ≤ 30 then some "O2" else none) ∧
    (findRelated (mkEnh ⟨none, none, none, none, some "qqqq", none⟩ "s@dom.io" "S")
        [⟨"O1", "s", "t", "zzzz"⟩] [] (.verdict ⟨true, some "O2", 30⟩)).lowConfLogged
        = (true && decide ((30 : Nat) < confidenceThreshold)) ∧
    pyTruthy (findRelated (mkEnh ⟨none, none, none, none, some "qqqq", none⟩ "s@dom.io" "S")
        [⟨"O1", "s", "t", "zzzz"⟩] [] (.verdict ⟨true, some "O2", 30⟩)).matchId
        = (true && decide (confidenceThreshold ≤ (30 : Nat)) && pyTruthy (some "O2")) :=
  c6_amended (mkEnh ⟨none, none, none, none, some "qqqq", none⟩ "s@dom.io" "S")
    [⟨"O1", "s", "t", "zzzz"⟩] [] ⟨true, some "O2", 30⟩ (by decide)

/-! ## Claim C8 -/

/-- C8: a transport error or an unparseable (non-JSON) oracle response —
`transport` distinguishes the two, both caught by the source's handlers —
is treated as no-match for that candidate only: when the call was actually
reached, the adapter returns `(None, [])` (no match, empty relevant list,
nothing logged as low-confidence).  The batch is never aborted: every
message that survives the processed filter is handled, as the second
conjunct states for an arbitrary cycle. -/
theorem c8_oracle_failure (e : Enh) (reg : List Opp) (hist : List Hist) (transport : Bool)
    (p0 : List String) (reg0 : List Opp) (f : Nat → String) (batch : List (Msg × MsgEnv))
    (h : (findRelated e reg hist (.failed transport)).oracleCalled = true) :
    findRelated e reg hist (.failed transport) = ⟨none, [], true, false⟩ ∧
    (processCycle p0 reg0 hist f batch).handled
      = (newMessages p0 batch).map (fun p => p.1.id) := by
  constructor
  · rw [findRelated_oracle_form e reg hist (.failed transport) h]
    rfl
  · unfold processCycle
    rw [foldl_processMessage_handled]
    rfl

/-- C8 (witness): the theorem at a concrete candidate that reaches the oracle
and a concrete one-message batch. -/
theorem c8_oracle_failure_witness :
    findRelated (mkEnh ⟨none, none, none, none, some "qqqq", none⟩ "s@dom.io" "S")
        [⟨"O1", "s", "t", "zzzz"⟩] [] (.failed false) = ⟨none, [], true, false⟩ ∧
    (processCycle [] [] [] wFresh [(wMsgA, wEnvEmpty)]).handled
      = (newMessages [] [(wMsgA, wEnvEmpty)]).map (fun p => p.1.id) :=
  c8_oracle_failure (mkEnh ⟨none, none, none, none, some "qqqq", none⟩ "s@dom.io" "S")
    [⟨"O1", "s", "t", "zzzz"⟩] [] false [] [] wFresh [(wMsgA, wEnvEmpty)] (by decide)

/-! ## Claim C7 -/

/-- The company part of the relevance score as the source computes it: an
`if/elif/elif` chain, one signal at most. -/
def companySignal (nc : String) (o : Opp) : Nat :=
  if nc ≠ "" ∧ nc ≠ "na" ∧ normStr o.company = nc then 1000
  else if nc ≠ "" ∧ nc ≠ "na" ∧ 3 < strLen nc then
    (if substrB nc (normStr o.company) ∨ substrB (normStr o.company) nc then 500 else 0)
  else if nc ≠ "" ∧ nc ≠ "na" ∧ substrB nc (oppText o) then 200
  else 0

def domainSignal (ndom : String) (o : Opp) : Nat :=
  if ndom ≠ "" ∧ substrB ndom (oppText o) then 100 else 0

def keywordHits (kws : List String) (o : Opp) : Nat :=
  kws.countP (fun k => substrB (lowerStr k) (oppText o))

def projectTermHits (ntitle nsum : String) (o : Opp) : Nat :=
  projectTerms.countP
    (fun term => (substrB term ntitle || substrB term nsum) && substrB term (oppText o))

/-- The scorer as claim C7 reads it: six independent, never mutually
exclusive, additive signals, with the +500 containment signal requiring
length ≥ 4 on both sides.  (Modelled from the claim's words, for
comparison against `scoreOpp`, which is transcribed from the source.) -/
def scoreOppSpecC7 (nc ntitle nsum ndom : String) (kws : List String) (o : Opp) : Nat :=
  (if normStr o.company = nc then 1000 else 0)
  + (if 4 ≤ strLen nc ∧ 4 ≤ strLen (normStr o.company)
        ∧ (substrB nc (normStr o.company) ∨ substrB (normStr o.company) nc) then 500 else 0)
  + (if substrB nc (oppText o) then 200 else 0)
  + (if ndom ≠ "" ∧ substrB ndom (oppText o) then 100 else 0)
  + 10 * keywordHits kws o + 30 * projectTermHits ntitle nsum o

/-- C7 (counterexample): the signals are not additive as claimed.  Candidate
company "acme" against an entry with company "acme": the source scores
1000 + one keyword hit = 1010, while the claim's additive reading gives
1000 + 500 + 200 + 10 = 1710 (exact equality, mutual containment and
text mention all hold simultaneously).  And against an entry with an empty
company the source still awards the +500 containment signal (the empty
string is contained in everything and only the candidate's length is
checked), scoring 500 where the claim's both-sides-≥ 4 reading gives 0. -/
theorem c7_counterexample :
    scoreOpp "acme" "" "" "" ["acme"] ⟨"O1", "", "", "acme"⟩ = 1010 ∧
    scoreOppSpecC7 "acme" "" "" "" ["acme"] ⟨"O1", "", "", "acme"⟩ = 1710 ∧
    scoreOpp "acme" "" "" "" ["acme"] ⟨"O2", "", "", ""⟩ = 500 ∧
    scoreOppSpecC7 "acme" "" "" "" ["acme"] ⟨"O2", "", "", ""⟩ = 0 :=
  ⟨by decide, by decide, by decide, by decide⟩

/-- C7 (amended): the score decomposes as one company signal (the
`if/elif/elif` chain: 1000 for exact equality; else, when the candidate
company is longer than 3 characters, 500 for one-sided containment — no
length requirement on the registry side — or 0; else 200 for a text
mention) plus the additive independent signals: +100 for the email domain
in the entry's text, +10 per keyword occurrence, +30 per shared
project-type term. -/
theorem c7_amended (nc ntitle nsum ndom : String) (kws : List String) (o : Opp) :
    scoreOpp nc ntitle nsum ndom kws o
      = companySignal nc o + domainSignal ndom o + 10 * keywordHits kws o
        + 30 * projectTermHits ntitle nsum o := by
  simp only [scoreOpp, companySignal, domainSignal, keywordHits, projectTermHits]
  rw [foldl_bool_add_count, foldl_bool_add_count]
  by_cases hd : ndom ≠ "" ∧ substrB ndom (oppText o)
  · rw [if_pos hd, if_pos hd]
  · rw [if_neg hd, if_neg hd]
    ring

/-! ## Claim C9 -/

/-- Accumulating loop versus filter-and-concatenate. -/
theorem foldl_append_filter {α β : Type} (P : α → Prop) [DecidablePred P] (g : α → List β) :
    ∀ (l : List α) (acc : List β),
      l.foldl (fun acc t => if P t then acc ++ g t else acc) acc
        = acc ++ (l.filter (fun t => decide (P t))).flatMap g := by
  intro l
  induction l with
  | nil => intro acc; simp
  | cons x xs ih =>
    intro acc
    simp only [List.foldl_cons, List.filter_cons]
    by_cases h : P x
    · rw [if_pos h, ih]
      simp [h]
    · rw [if_neg h, ih]
      simp [h]

/-- C9 (counterexample): the keyword output is not de-duplicated (and tokens
are not lower-cased by the extractor itself): input title "FOO FOO" yields
["FOO", "FOO"] — the same token twice, in original case — contradicting
the claimed de-duplication ("no token appears twice"). -/
theorem c9_counterexample :
    extractKeywords ["FOO FOO", "", ""] = ["FOO", "FOO"] ∧
    ¬ (extractKeywords ["FOO FOO", "", ""]).Nodup ∧
    extractKeywords ["FOO FOO", "", ""] ≠ ["foo"] :=
  ⟨by decide, by decide, by decide⟩

/-- C9 (amended): the keyword output is the concatenation, in input order and
with multiplicity (no de-duplication), of each non-empty, non-"na" input
text's whitespace tokens of trimmed length > 2, with tokens whose
lower-casing lies in the fixed stop-word set removed; membership is
exactly as the claim describes apart from de-duplication (and tokens keep
their original case — the call site lower-cases the inputs). -/
theorem c9_amended (texts : List String) :
    extractKeywords texts
      = ((texts.filter (fun t => decide (t ≠ "" ∧ t ≠ "na"))).flatMap pyWords).filter
          (fun k => ¬ lowerStr k ∈ commonWords) ∧
    ∀ k, k ∈ extractKeywords texts ↔
      ((∃ t ∈ texts, (t ≠ "" ∧ t ≠ "na") ∧ k ∈ pyWords t) ∧ ¬ lowerStr k ∈ commonWords) := by
  have hfold : extractKeywords texts
      = ((texts.filter (fun t => decide (t ≠ "" ∧ t ≠ "na"))).flatMap pyWords).filter
          (fun k => ¬ lowerStr k ∈ commonWords) := by
    unfold extractKeywords
    rw [foldl_append_filter]
    rfl
  refine ⟨hfold, ?_⟩
  intro k
  rw [hfold]
  simp only [List.mem_filter, List.mem_flatMap, decide_eq_true_eq]
  tauto

end EmailBot2
